import Mathlib

/-!
Verification of `bot.py` (WeeklyFileBot), a weekly scheduled file-sending bot.

Shallow embedding: the pure scheduling arithmetic (`get_next_friday`,
`get_time_until_next_friday`), the authorization check (`is_authorized`),
the artifact generator (`generate_file`), the delivery loop (`send_file`),
the four command handlers and one iteration of the scheduler loop
(`weekly_scheduler`) are translated into Lean definitions.  Effectful
collaborators (the subprocess, the directory listing, the Telegram
transport, `unlink`) are modelled as explicit environment values giving
the outcome of each external call; chat replies and external calls become
explicit action lists.
-/

namespace Bot

/-- Naive wall-clock instant, mirroring Python `datetime`.  `day` is an
absolute day index with the convention `day % 7 = 0` ↔ Monday, matching
Python `datetime.weekday()` (Monday = 0, Friday = 4). -/
structure DateTime where
  day : Nat
  hour : Nat
  minute : Nat
  second : Nat
  microsecond : Nat
deriving DecidableEq, Repr

/-- Well-formedness of the clock fields, as `datetime` guarantees. -/
def DateTime.WF (dt : DateTime) : Prop :=
  dt.hour < 24 ∧ dt.minute < 60 ∧ dt.second < 60 ∧ dt.microsecond < 1000000

instance (dt : DateTime) : Decidable dt.WF := by
  unfold DateTime.WF; infer_instance

/-- Python `datetime.weekday()`: Monday = 0 … Sunday = 6. -/
def DateTime.weekday (dt : DateTime) : Nat := dt.day % 7

/-- Time of day in microseconds since midnight. -/
def timeOfDayMicro (dt : DateTime) : Nat :=
  ((dt.hour * 60 + dt.minute) * 60 + dt.second) * 1000000 + dt.microsecond

/-- Absolute instant in microseconds, the linear order on `DateTime`. -/
def toMicro (dt : DateTime) : Nat :=
  dt.day * 86400000000 + timeOfDayMicro dt

/-- The target time of day, 10:00:00.000000, in microseconds. -/
def targetMicro : Nat := 10 * 3600 * 1000000

/-- `WeeklyFileBot.get_next_friday` (bot.py:107-115):
```
now = datetime.now()
days_until_friday = (4 - now.weekday()) % 7
if days_until_friday == 0 and now.hour >= 10:
    days_until_friday = 7
next_friday = now + timedelta(days=days_until_friday)
return next_friday.replace(hour=10, minute=0, second=0, microsecond=0)
```
Python `%` on `int` is `Int.emod`.  `timedelta(days=d)` on a naive
`datetime` adds `d` to the day index leaving the time of day unchanged;
`replace` then overwrites the time fields. -/
def get_next_friday (now : DateTime) : DateTime :=
  let days_until_friday : Int := (4 - (now.weekday : Int)) % 7
  let days_until_friday : Int :=
    if days_until_friday = 0 ∧ 10 ≤ now.hour then 7 else days_until_friday
  ⟨now.day + days_until_friday.toNat, 10, 0, 0, 0⟩

/-- C1: on the target weekday (Friday), a current instant whose time of day
is strictly before 10:00 maps to the same day at 10:00:00.000000, and a
current instant at or after 10:00 (equality included) maps to exactly
7 days later at 10:00, never the same day and never the same instant. -/
theorem C1_next_friday_on_friday (now : DateTime) (hwf : now.WF)
    (hfri : now.weekday = 4) :
    (timeOfDayMicro now < targetMicro →
      get_next_friday now = ⟨now.day, 10, 0, 0, 0⟩) ∧
    (targetMicro ≤ timeOfDayMicro now →
      get_next_friday now = ⟨now.day + 7, 10, 0, 0, 0⟩ ∧
      get_next_friday now ≠ now) := by
  obtain ⟨h1, h2, h3, h4⟩ := hwf
  constructor
  · intro hlt
    have hhour : now.hour < 10 := by
      by_contra hge
      push_neg at hge
      unfold timeOfDayMicro targetMicro at hlt
      omega
    simp only [get_next_friday, hfri]
    norm_num
    omega
  · intro hge
    have hhour : 10 ≤ now.hour := by
      by_contra hlt
      push_neg at hlt
      unfold timeOfDayMicro targetMicro at hge
      omega
    have heq : get_next_friday now = ⟨now.day + 7, 10, 0, 0, 0⟩ := by
      simp only [get_next_friday, hfri]
      norm_num [hhour]
      rfl
    refine ⟨heq, ?_⟩
    rw [heq]
    intro hcontra
    have : now.day + 7 = now.day := congrArg DateTime.day hcontra
    omega

/-- Witness for C1 at Friday 09:00 (before target) and Friday 10:00:00
exactly (at target, to the second). -/
theorem C1_witness :
    get_next_friday ⟨4, 9, 0, 0, 0⟩ = ⟨4, 10, 0, 0, 0⟩ ∧
    (get_next_friday ⟨4, 10, 0, 0, 0⟩ = ⟨4 + 7, 10, 0, 0, 0⟩ ∧
      get_next_friday ⟨4, 10, 0, 0, 0⟩ ≠ ⟨4, 10, 0, 0, 0⟩) :=
  ⟨(C1_next_friday_on_friday ⟨4, 9, 0, 0, 0⟩ (by decide) (by decide)).1
      (by decide),
   (C1_next_friday_on_friday ⟨4, 10, 0, 0, 0⟩ (by decide) (by decide)).2
      (by decide)⟩

/-- C2: when `now` is not on the target weekday, `get_next_friday` returns
an instant 1–6 days ahead whose weekday is Friday, whose time of day is
exactly 10:00:00.000000, and which is never earlier than `now`. -/
theorem C2_next_friday_off_friday (now : DateTime) (hwf : now.WF)
    (hoff : now.weekday ≠ 4) :
    (∃ d, 1 ≤ d ∧ d ≤ 6 ∧ (get_next_friday now).day = now.day + d) ∧
    (get_next_friday now).weekday = 4 ∧
    timeOfDayMicro (get_next_friday now) = targetMicro ∧
    toMicro now ≤ toMicro (get_next_friday now) := by
  obtain ⟨h1, h2, h3, h4⟩ := hwf
  have hwd : now.weekday < 7 := Nat.mod_lt _ (by norm_num)
  have hd0 : 1 ≤ (4 - (now.weekday : Int)) % 7 ∧
      (4 - (now.weekday : Int)) % 7 ≤ 6 := by
    omega
  have hres : get_next_friday now =
      ⟨now.day + ((4 - (now.weekday : Int)) % 7).toNat, 10, 0, 0, 0⟩ := by
    simp only [get_next_friday]
    have : ¬((4 - (now.weekday : Int)) % 7 = 0 ∧ 10 ≤ now.hour) := by
      intro hcontra
      omega
    rw [if_neg this]
  rw [hres]
  refine ⟨⟨((4 - (now.weekday : Int)) % 7).toNat, by omega, by omega, rfl⟩,
    ?_, by unfold timeOfDayMicro targetMicro; norm_num, ?_⟩
  · show (now.day + ((4 - (now.weekday : Int)) % 7).toNat) % 7 = 4
    unfold DateTime.weekday at hoff hwd hd0 ⊢
    omega
  · unfold toMicro timeOfDayMicro
    dsimp only
    omega

/-- Witness for C2 at a Monday afternoon instant. -/
theorem C2_witness :
    (∃ d, 1 ≤ d ∧ d ≤ 6 ∧ (get_next_friday ⟨0, 12, 30, 0, 0⟩).day = 0 + d) ∧
    (get_next_friday ⟨0, 12, 30, 0, 0⟩).weekday = 4 ∧
    timeOfDayMicro (get_next_friday ⟨0, 12, 30, 0, 0⟩) = targetMicro ∧
    toMicro ⟨0, 12, 30, 0, 0⟩ ≤ toMicro (get_next_friday ⟨0, 12, 30, 0, 0⟩) :=
  C2_next_friday_off_friday ⟨0, 12, 30, 0, 0⟩ (by decide) (by decide)

/-- `WeeklyFileBot.is_authorized` (bot.py:42-47): the configured
`authorized_users` set (parsed from a comma-separated id list) is modelled
as a list of integer ids; an empty configuration allows everyone,
otherwise membership decides. -/
def is_authorized (authorized_users : List Int) (user_id : Int) : Bool :=
  if authorized_users.isEmpty then true
  else authorized_users.contains user_id

/-- C6: with an empty authorized-set every id is authorized; with a
nonempty set exactly the listed ids are authorized. -/
theorem C6_is_authorized (authorized_users : List Int) (user_id : Int) :
    (authorized_users = [] → is_authorized authorized_users user_id = true) ∧
    (authorized_users ≠ [] →
      (is_authorized authorized_users user_id = true ↔
        user_id ∈ authorized_users)) := by
  constructor
  · intro hempty
    simp [is_authorized, hempty]
  · intro hne
    simp [is_authorized, List.isEmpty_iff, hne]

/-- Witness for C6: empty set allows id 99; the set `[1, 2]` allows 2 and
rejects 3. -/
theorem C6_witness :
    is_authorized [] 99 = true ∧
    is_authorized [1, 2] 2 = true ∧
    is_authorized [1, 2] 3 = false := by
  refine ⟨(C6_is_authorized [] 99).1 rfl, ?_, ?_⟩
  · exact ((C6_is_authorized [1, 2] 2).2 (by decide)).2 (by decide)
  · have h := (C6_is_authorized [1, 2] 3).2 (by decide)
    by_contra hc
    simp only [Bool.not_eq_false] at hc
    exact absurd (h.1 hc) (by decide)

/-! ## Artifact generator (`generate_file`, bot.py:134-191)

The external calls made inside the `try` block — `os.chdir`, the
`subprocess.run` of `huami-token`, the directory iteration — are modelled
by an environment `GenEnv` giving their outcome. -/

/-- Outcome of the `subprocess.run(cmd, …, timeout=120)` call:
`completed` carries the exit code, captured stdout and stderr;
`timeoutExpired` is `subprocess.TimeoutExpired`; `otherError` is any other
exception raised inside the `try` block (for example by `os.chdir`). -/
inductive RunOutcome
  | completed (returncode : Int) (stdout : String) (stderr : String)
  | timeoutExpired
  | otherError
deriving DecidableEq, Repr

/-- An entry of the `/app/huami-token` directory listing
(`huami_dir.iterdir()`). -/
structure DirEntry where
  name : String
  isFile : Bool
deriving DecidableEq, Repr

/-- Environment of one `generate_file` call. -/
structure GenEnv where
  run : RunOutcome
  listing : List DirEntry
deriving DecidableEq, Repr

/-- Index of the last occurrence of a character in a list, if any. -/
def lastIdxOf (c : Char) : List Char → Option Nat
  | [] => none
  | x :: xs =>
    match lastIdxOf c xs with
    | some i => some (i + 1)
    | none => if x = c then some 0 else none

/-- `pathlib.PurePath.suffix`: the substring of the name from its last dot,
provided that dot is neither the leading nor the trailing character;
otherwise the empty string. -/
def pySuffix (name : String) : String :=
  let cs := name.data
  match lastIdxOf '.' cs with
  | some i => if 0 < i ∧ i < cs.length - 1 then String.mk (cs.drop i) else ""
  | none => ""

/-- Python `str.lower()` on the (ASCII) suffix strings involved: lowercase
each character.  Structurally recursive so that concrete instances
evaluate. -/
def strLower (s : String) : String := String.mk (s.data.map Char.toLower)

/-- The artifact filter of bot.py:176:
`file_path.is_file() and file_path.suffix.lower() in ['.zip', '.bin']`. -/
def isArtifact (e : DirEntry) : Bool :=
  e.isFile && (strLower (pySuffix e.name) == ".zip" ||
    strLower (pySuffix e.name) == ".bin")

/-- `WeeklyFileBot.generate_file` (bot.py:134-191).  Every failure path —
`TimeoutExpired`, any other exception, a nonzero exit code, and a zero
exit code with no `.zip`/`.bin` file in the listing — returns `none`
(Python `None`); stdout and stderr are only logged.  On success it
returns the names of the matching files. -/
def generate_file (env : GenEnv) : Option (List String) :=
  match env.run with
  | RunOutcome.timeoutExpired => none
  | RunOutcome.otherError => none
  | RunOutcome.completed returncode _ _ =>
    if returncode ≠ 0 then none
    else
      let generated_files := env.listing.filter isArtifact
      if generated_files.isEmpty then none
      else some (generated_files.map DirEntry.name)

/-- C10: `generate_file` is total towards its caller: it either returns
`none`, or a nonempty list containing exactly (at the level of membership)
the names of the regular files of the tool directory whose lowercased
suffix is `.zip` or `.bin`. -/
theorem C10_generate_file_total (env : GenEnv) :
    generate_file env = none ∨
    ∃ l, generate_file env = some l ∧ l ≠ [] ∧
      ∀ n : String, n ∈ l ↔ ∃ e ∈ env.listing, e.name = n ∧ e.isFile = true ∧
        (strLower (pySuffix e.name) = ".zip" ∨
          strLower (pySuffix e.name) = ".bin") := by
  cases hrun : env.run with
  | timeoutExpired => exact Or.inl (by simp [generate_file, hrun])
  | otherError => exact Or.inl (by simp [generate_file, hrun])
  | completed returncode out err =>
    by_cases hrc : returncode ≠ 0
    · exact Or.inl (by simp [generate_file, hrun, hrc])
    · by_cases hempty : (env.listing.filter isArtifact).isEmpty
      · exact Or.inl (by simp [generate_file, hrun, hrc, hempty])
      · refine Or.inr ⟨(env.listing.filter isArtifact).map DirEntry.name,
          by simp [generate_file, hrun, hrc, hempty], ?_, ?_⟩
        · intro hnil
          rw [List.map_eq_nil_iff] at hnil
          rw [hnil] at hempty
          exact hempty rfl
        · intro n
          simp only [List.mem_map, List.mem_filter, isArtifact,
            Bool.and_eq_true, Bool.or_eq_true, beq_iff_eq]
          constructor
          · rintro ⟨e, ⟨hmem, hfile, hsuf⟩, hname⟩
            exact ⟨e, hmem, hname, hfile, hsuf⟩
          · rintro ⟨e, hmem, hname, hfile, hsuf⟩
            exact ⟨e, ⟨hmem, hfile, hsuf⟩, hname⟩

/-- Witness for C10 at a concrete successful environment. -/
theorem C10_witness :
    generate_file ⟨RunOutcome.completed 0 "" "", [⟨"a.ZIP", true⟩]⟩ = none ∨
    ∃ l, generate_file ⟨RunOutcome.completed 0 "" "", [⟨"a.ZIP", true⟩]⟩
        = some l ∧ l ≠ [] ∧
      ∀ n : String, n ∈ l ↔
        ∃ e ∈ [DirEntry.mk "a.ZIP" true], e.name = n ∧ e.isFile = true ∧
          (strLower (pySuffix e.name) = ".zip" ∨
            strLower (pySuffix e.name) = ".bin") :=
  C10_generate_file_total ⟨RunOutcome.completed 0 "" "", [⟨"a.ZIP", true⟩]⟩

/-- A `generate_file` call failed before producing artifacts: the
subprocess timed out, some other exception was raised, the tool exited
nonzero, or it exited zero with no `.zip`/`.bin` file present. -/
def FailureMode (env : GenEnv) : Prop :=
  env.run = RunOutcome.timeoutExpired ∨
  env.run = RunOutcome.otherError ∨
  (∃ rc out err, env.run = RunOutcome.completed rc out err ∧ rc ≠ 0) ∨
  (∃ out err, env.run = RunOutcome.completed 0 out err ∧
    env.listing.filter isArtifact = [])

/-- C4 counterexample: the three failure modes the claim requires to be
distinguishable — timeout, nonzero exit (`ToolFailed`), zero exit with no
artifacts (`NoArtifacts`) — all produce the very same caller-visible value
`none`; the exit code and stderr are not carried to the caller. -/
theorem C4_counterexample :
    generate_file ⟨RunOutcome.timeoutExpired, [⟨"a.zip", true⟩]⟩ = none ∧
    generate_file ⟨RunOutcome.completed 2 "" "boom", [⟨"a.zip", true⟩]⟩
      = none ∧
    generate_file ⟨RunOutcome.completed 0 "ok" "", [⟨"readme.txt", true⟩]⟩
      = none := by
  exact ⟨rfl, rfl, rfl⟩

/-- C4 amended: `generate_file` reports every failure mode — timeout,
tool failure, missing artifacts, and any internal exception — by one and
the same value `none`; the caller cannot distinguish them (the exit code
and stderr appear only in the log). -/
theorem C4_failure_modes_collapse (env : GenEnv) (h : FailureMode env) :
    generate_file env = none := by
  rcases h with h | h | ⟨rc, out, err, h, hrc⟩ | ⟨out, err, h, hfilter⟩
  · simp [generate_file, h]
  · simp [generate_file, h]
  · simp [generate_file, h, hrc]
  · simp [generate_file, h, hfilter]

/-- Witness for C4's amended theorem at a concrete timed-out environment. -/
theorem C4_witness :
    generate_file ⟨RunOutcome.timeoutExpired, []⟩ = none :=
  C4_failure_modes_collapse ⟨RunOutcome.timeoutExpired, []⟩ (Or.inl rfl)

/-! ## Delivery loop (`send_file`, bot.py:244-273)

The whole per-file loop sits inside one `try` whose handlers
(`except TelegramError` / `except Exception`) are OUTSIDE the loop and
return `False`; only the `unlink` has its own inner `try/except`. -/

/-- Outcome of the `bot.send_document` call for one file. -/
inductive SendOutcome
  | ok
  | telegramError
  | otherError
deriving DecidableEq, Repr

/-- Behaviour of the external calls made for one file: whether `open`
succeeds, how `send_document` ends, and whether `unlink` succeeds. -/
structure FileBehavior where
  openOk : Bool
  send : SendOutcome
  unlinkOk : Bool
deriving DecidableEq, Repr

/-- What happened to one file of the batch.  `sentAndDeleted`: sent and
removed from disk.  `sentNotDeleted`: sent, but `unlink` raised (logged
only), file remains on disk.  `openFailed` / `sendFailed`: `open` resp.
`send_document` raised, file remains on disk.  `notAttempted`: a raise on
an earlier file aborted the loop before this file, file remains on disk. -/
inductive FileFate
  | sentAndDeleted
  | sentNotDeleted
  | openFailed
  | sendFailed
  | notAttempted
deriving DecidableEq, Repr

/-- The `for file_path in file_paths` loop of `send_file`: a raise from
`open` or `send_document` escapes to the handlers outside the loop, which
return `False`, leaving every later file untouched; a raise from `unlink`
is caught inside the loop and the iteration continues. -/
def sendLoop : List FileBehavior → Bool × List FileFate
  | [] => (true, [])
  | b :: rest =>
    if b.openOk = false then
      (false, FileFate.openFailed :: rest.map fun _ => FileFate.notAttempted)
    else
      match b.send with
      | SendOutcome.ok =>
        let fate := if b.unlinkOk then FileFate.sentAndDeleted
          else FileFate.sentNotDeleted
        let r := sendLoop rest
        (r.1, fate :: r.2)
      | _ =>
        (false, FileFate.sendFailed :: rest.map fun _ => FileFate.notAttempted)

/-- `WeeklyFileBot.send_file` (bot.py:244-273), returning the Python
return value (`True`/`False`) together with the fate of each file. -/
def send_file (files : List FileBehavior) : Bool × List FileFate :=
  sendLoop files

/-- C3 counterexample: batch of 3 files where file #2's `send_document`
raises `TelegramError` and files #1 and #3 would succeed.  The code
aborts the whole batch at file #2: it returns `False`, file #1 is sent
and deleted, file #2 remains on disk, and file #3 is NEVER attempted —
not the `[success, failed, success]` outcome the claim states. -/
theorem C3_counterexample :
    send_file [⟨true, SendOutcome.ok, true⟩,
      ⟨true, SendOutcome.telegramError, true⟩,
      ⟨true, SendOutcome.ok, true⟩] =
      (false, [FileFate.sentAndDeleted, FileFate.sendFailed,
        FileFate.notAttempted]) ∧
    (send_file [⟨true, SendOutcome.ok, true⟩,
      ⟨true, SendOutcome.telegramError, true⟩,
      ⟨true, SendOutcome.ok, true⟩]).2 ≠
      [FileFate.sentAndDeleted, FileFate.sendFailed,
        FileFate.sentAndDeleted] := by
  exact ⟨rfl, by decide⟩

/-- C3 amended: a `TelegramError` on file #2 of a 3-file batch aborts the
batch: `send_file` returns `False`; file #1 (sent before the failure) is
deleted; file #2 remains on disk; file #3 is never attempted and remains
on disk, whatever its own behaviour would have been. -/
theorem C3_batch_aborts (b1 b2 b3 : FileBehavior)
    (h1 : b1.openOk = true ∧ b1.send = SendOutcome.ok ∧ b1.unlinkOk = true)
    (h2 : b2.openOk = true ∧ b2.send = SendOutcome.telegramError) :
    send_file [b1, b2, b3] =
      (false, [FileFate.sentAndDeleted, FileFate.sendFailed,
        FileFate.notAttempted]) := by
  obtain ⟨h1o, h1s, h1u⟩ := h1
  obtain ⟨h2o, h2s⟩ := h2
  simp [send_file, sendLoop, h1o, h1s, h1u, h2o, h2s]

/-- Witness for C3's amended theorem at a concrete batch. -/
theorem C3_witness :
    send_file [⟨true, SendOutcome.ok, true⟩,
      ⟨true, SendOutcome.telegramError, false⟩,
      ⟨true, SendOutcome.ok, true⟩] =
      (false, [FileFate.sentAndDeleted, FileFate.sendFailed,
        FileFate.notAttempted]) :=
  C3_batch_aborts _ _ _ (by decide) (by decide)

/-- C5: delete-only-on-confirmed-send.  Pointwise over the batch:
a file's fate is `sentAndDeleted` only when its own `open` and
`send_document` succeeded and its `unlink` succeeded; a file whose send
failed is never deleted.  Moreover a failing `unlink` is not escalated:
when every file opens and sends successfully, `send_file` returns `True`
and every file was sent (fate `sentAndDeleted` or `sentNotDeleted`),
whatever the `unlink` outcomes. -/
theorem C5_delete_iff_sent (files : List FileBehavior) :
    List.Forall₂ (fun (b : FileBehavior) (f : FileFate) =>
        (f = FileFate.sentAndDeleted →
          b.openOk = true ∧ b.send = SendOutcome.ok ∧ b.unlinkOk = true) ∧
        (b.send ≠ SendOutcome.ok → f ≠ FileFate.sentAndDeleted))
      files (send_file files).2 ∧
    ((∀ b ∈ files, b.openOk = true ∧ b.send = SendOutcome.ok) →
      (send_file files).1 = true ∧
      ∀ f ∈ (send_file files).2,
        f = FileFate.sentAndDeleted ∨ f = FileFate.sentNotDeleted) := by
  induction files with
  | nil => exact ⟨List.Forall₂.nil, fun _ => ⟨rfl, by simp [send_file, sendLoop]⟩⟩
  | cons b rest ih =>
    constructor
    · by_cases hopen : b.openOk = false
      · simp only [send_file, sendLoop, hopen, if_true]
        refine List.Forall₂.cons ⟨fun hcontra => by simp at hcontra, fun _ => by simp⟩ ?_
        rw [List.forall₂_map_right_iff]
        rw [List.forall₂_same]
        intro x _
        exact ⟨fun hcontra => by simp at hcontra, fun _ => by simp⟩
      · rw [Bool.not_eq_false] at hopen
        cases hsend : b.send with
        | ok =>
          have hstep : (send_file (b :: rest)).2 =
              (if b.unlinkOk then FileFate.sentAndDeleted
                else FileFate.sentNotDeleted) :: (send_file rest).2 := by
            simp [send_file, sendLoop, hopen, hsend]
          rw [hstep]
          refine List.Forall₂.cons ⟨fun _ => ?_, fun hne => absurd hsend hne⟩ ih.1
          by_cases hu : b.unlinkOk
          · exact ⟨hopen, hsend, hu⟩
          · simp [hu] at *
        | telegramError =>
          have hstep : (send_file (b :: rest)).2 =
              FileFate.sendFailed :: rest.map fun _ => FileFate.notAttempted := by
            simp [send_file, sendLoop, hopen, hsend]
          rw [hstep]
          refine List.Forall₂.cons ⟨fun hcontra => by simp at hcontra, fun _ => by simp⟩ ?_
          rw [List.forall₂_map_right_iff, List.forall₂_same]
          intro x _
          exact ⟨fun hcontra => by simp at hcontra, fun _ => by simp⟩
        | otherError =>
          have hstep : (send_file (b :: rest)).2 =
              FileFate.sendFailed :: rest.map fun _ => FileFate.notAttempted := by
            simp [send_file, sendLoop, hopen, hsend]
          rw [hstep]
          refine List.Forall₂.cons ⟨fun hcontra => by simp at hcontra, fun _ => by simp⟩ ?_
          rw [List.forall₂_map_right_iff, List.forall₂_same]
          intro x _
          exact ⟨fun hcontra => by simp at hcontra, fun _ => by simp⟩
    · intro hall
      obtain ⟨hbo, hbs⟩ := hall b (by simp)
      have hrest := ih.2 fun x hx => hall x (by simp [hx])
      have hstep : send_file (b :: rest) =
          ((send_file rest).1,
            (if b.unlinkOk then FileFate.sentAndDeleted
              else FileFate.sentNotDeleted) :: (send_file rest).2) := by
        simp [send_file, sendLoop, hbo, hbs]
      rw [hstep]
      refine ⟨hrest.1, ?_⟩
      intro f hf
      rcases List.mem_cons.mp hf with hf | hf
      · by_cases hu : b.unlinkOk
        · simp [hu] at hf
          exact Or.inl hf
        · simp [hu] at hf
          exact Or.inr hf
      · exact hrest.2 f hf

/-- Witness for C5 on a concrete batch whose middle file's `unlink`
raises: delivery still returns `True` and both files were sent. -/
theorem C5_witness :
    (send_file [⟨true, SendOutcome.ok, false⟩, ⟨true, SendOutcome.ok, true⟩]).1
        = true ∧
    ∀ f ∈ (send_file [⟨true, SendOutcome.ok, false⟩,
        ⟨true, SendOutcome.ok, true⟩]).2,
      f = FileFate.sentAndDeleted ∨ f = FileFate.sentNotDeleted :=
  (C5_delete_iff_sent _).2 (by decide)

/-! ## Command handlers (bot.py:49-105)

Replies are modelled by their information content (the calendar string
formatting of `strftime` is abstracted to the `DateTime` value carried);
the external calls a handler makes become explicit `Action`s in order. -/

/-- `get_time_until_next_friday` (bot.py:117-132), reduced to the
`(days, hours, minutes)` triple Python computes from the normalized
`timedelta` (`delta.days`, `delta.seconds // 3600`,
`(delta.seconds % 3600) // 60`). -/
def time_until_next_friday (now : DateTime) : Nat × Nat × Nat :=
  let deltaMicro := toMicro (get_next_friday now) - toMicro now
  let days := deltaMicro / 86400000000
  let seconds := (deltaMicro % 86400000000) / 1000000
  (days, seconds / 3600, (seconds % 3600) / 60)

/-- Content of a chat reply. -/
inductive Msg
  | rejection
  | startHelp
  | statusReport (nextSend : DateTime)
  | generatingProgress
  | sentOk (count : Nat)
  | generateFailed
  | errorReport
  | nextSendReport (nextSend : DateTime) (remaining : Nat × Nat × Nat)
deriving DecidableEq, Repr

/-- An observable action of a handler: a chat reply, the `generate_file`
call, or the `send_file` call towards a chat id. -/
inductive Action
  | reply (msg : Msg)
  | generateCall
  | deliverCall (chatId : Int)
deriving DecidableEq, Repr

/-- `WeeklyFileBot.start_command` (bot.py:49-62). -/
def start_command (authorized_users : List Int) (user_id : Int) :
    List Action :=
  if is_authorized authorized_users user_id = false then
    [Action.reply Msg.rejection]
  else
    [Action.reply Msg.startHelp]

/-- `WeeklyFileBot.status_command` (bot.py:64-74). -/
def status_command (authorized_users : List Int) (user_id : Int)
    (now : DateTime) : List Action :=
  if is_authorized authorized_users user_id = false then
    [Action.reply Msg.rejection]
  else
    [Action.reply (Msg.statusReport (get_next_friday now))]

/-- `WeeklyFileBot.next_send_command` (bot.py:95-105). -/
def next_send_command (authorized_users : List Int) (user_id : Int)
    (now : DateTime) : List Action :=
  if is_authorized authorized_users user_id = false then
    [Action.reply Msg.rejection]
  else
    [Action.reply (Msg.nextSendReport (get_next_friday now)
      (time_until_next_friday now))]

/-- `WeeklyFileBot.send_now_command` (bot.py:76-93): the authorization
check runs first; only then the progress reply, the `generate_file` call,
and — when it returned a file list — the `send_file` call and result
reply. -/
def send_now_command (authorized_users : List Int) (user_id : Int)
    (chat_id : Int) (genEnv : GenEnv) : List Action :=
  if is_authorized authorized_users user_id = false then
    [Action.reply Msg.rejection]
  else
    Action.reply Msg.generatingProgress ::
    Action.generateCall ::
    match generate_file genEnv with
    | some file_paths =>
      [Action.deliverCall chat_id, Action.reply (Msg.sentOk file_paths.length)]
    | none => [Action.reply Msg.generateFailed]

/-- C7: an unauthorized caller of any of the four commands receives
exactly the fixed rejection reply and nothing else happens; in particular
`send_now_command` performs no `generate_file` and no `send_file` call. -/
theorem C7_unauthorized_rejected (authorized_users : List Int)
    (user_id : Int) (now : DateTime) (chat_id : Int) (genEnv : GenEnv)
    (h : is_authorized authorized_users user_id = false) :
    start_command authorized_users user_id = [Action.reply Msg.rejection] ∧
    status_command authorized_users user_id now
      = [Action.reply Msg.rejection] ∧
    next_send_command authorized_users user_id now
      = [Action.reply Msg.rejection] ∧
    send_now_command authorized_users user_id chat_id genEnv
      = [Action.reply Msg.rejection] ∧
    Action.generateCall ∉ send_now_command authorized_users user_id chat_id genEnv ∧
    Action.deliverCall chat_id ∉ send_now_command authorized_users user_id chat_id genEnv := by
  simp [start_command, status_command, next_send_command, send_now_command, h]

/-- Witness for C7: id 2 against the configured set `[1]`. -/
theorem C7_witness :
    start_command [1] 2 = [Action.reply Msg.rejection] ∧
    status_command [1] 2 ⟨0, 0, 0, 0, 0⟩ = [Action.reply Msg.rejection] ∧
    next_send_command [1] 2 ⟨0, 0, 0, 0, 0⟩ = [Action.reply Msg.rejection] ∧
    send_now_command [1] 2 7 ⟨RunOutcome.timeoutExpired, []⟩
      = [Action.reply Msg.rejection] ∧
    Action.generateCall ∉ send_now_command [1] 2 7 ⟨RunOutcome.timeoutExpired, []⟩ ∧
    Action.deliverCall 7 ∉ send_now_command [1] 2 7 ⟨RunOutcome.timeoutExpired, []⟩ :=
  C7_unauthorized_rejected [1] 2 ⟨0, 0, 0, 0, 0⟩ 7
    ⟨RunOutcome.timeoutExpired, []⟩ (by decide)

/-! ## Scheduler loop (`weekly_scheduler`, bot.py:275-304)

One iteration of the `while True` body: the `try` block recomputes the
next occurrence from the current instant, sleeps until it, calls
`generate_file` and — when it returned files and a chat id is configured —
`send_file`; a `generate_file` result of `None` or a `send_file` result of
`False` is only logged.  Only an exception escaping the `try` reaches the
`except` handler, which sleeps 3600 seconds before the loop recomputes. -/

/-- Observable event of one scheduler iteration. -/
inductive IterEvent
  | mainSleep (micros : Nat)
  | generateCall
  | deliverCall
  | recoverySleep (seconds : Nat)
deriving DecidableEq, Repr

/-- How the `try` body of one iteration ends: `normal gen sendSuccess`
(no exception; `gen` is the `generate_file` result and `sendSuccess` the
`send_file` result when it was called), or `raised pre` — an exception
escaped the body after the events `pre` had already been performed. -/
inductive BodyOutcome
  | normal (gen : Option (List String)) (sendSuccess : Bool)
  | raised (pre : List IterEvent)
deriving DecidableEq, Repr

/-- One iteration of `weekly_scheduler`: the events it performs, in
order.  In the `normal` case the iteration sleeps the recomputed
`(next_friday - now)` duration, calls `generate_file`, and calls
`send_file` exactly when a file list and a chat id are present; in the
`raised` case the `except` handler appends the fixed 3600-second recovery
sleep after the already-performed events. -/
def scheduler_iteration (now : DateTime) (chat_id : Option Int)
    (out : BodyOutcome) : List IterEvent :=
  match out with
  | BodyOutcome.raised pre => pre ++ [IterEvent.recoverySleep 3600]
  | BodyOutcome.normal gen _ =>
    IterEvent.mainSleep (toMicro (get_next_friday now) - toMicro now) ::
    IterEvent.generateCall ::
    match gen, chat_id with
    | some _, some _ => [IterEvent.deliverCall]
    | _, _ => []

/-- C8 counterexample: an iteration whose generate-and-deliver attempt
fails — `generate_file` returns `None` — performs NO recovery sleep: the
1-hour wait happens only when an exception escapes the body, not on every
failed attempt. -/
theorem C8_counterexample :
    IterEvent.recoverySleep 3600 ∉
      scheduler_iteration ⟨0, 0, 0, 0, 0⟩ (some 1)
        (BodyOutcome.normal none false) := by
  decide

/-- C8 amended: the fixed 3600-second recovery sleep is performed exactly
by iterations whose body raised an exception; an iteration completing
normally — even one whose attempt failed with `generate_file = None` or
`send_file = False` — performs no recovery sleep, and its first event is
the sleep towards the occurrence recomputed from the current instant. -/
theorem C8_recovery_on_raise (now : DateTime) (chat_id : Option Int)
    (out : BodyOutcome) :
    (∀ pre, out = BodyOutcome.raised pre →
      IterEvent.recoverySleep 3600 ∈ scheduler_iteration now chat_id out) ∧
    (∀ gen sendSuccess, out = BodyOutcome.normal gen sendSuccess →
      IterEvent.recoverySleep 3600 ∉ scheduler_iteration now chat_id out ∧
      (scheduler_iteration now chat_id out).head? =
        some (IterEvent.mainSleep
          (toMicro (get_next_friday now) - toMicro now))) := by
  constructor
  · intro pre hout
    subst hout
    simp [scheduler_iteration]
  · intro gen sendSuccess hout
    subst hout
    constructor
    · simp only [scheduler_iteration, List.mem_cons]
      rintro (h | h | h)
      · exact IterEvent.noConfusion h
      · exact IterEvent.noConfusion h
      · match gen, chat_id, h with
        | some _, some _, h => simp at h
        | some _, none, h => simp at h
        | none, _, h => simp at h
    · rfl

/-- Witness for C8's amended theorem: a raising iteration performs the
3600-second recovery sleep; a normally-failing one does not and starts by
sleeping towards the recomputed occurrence. -/
theorem C8_witness :
    IterEvent.recoverySleep 3600 ∈
      scheduler_iteration ⟨0, 0, 0, 0, 0⟩ (some 1)
        (BodyOutcome.raised [IterEvent.generateCall]) ∧
    (IterEvent.recoverySleep 3600 ∉
      scheduler_iteration ⟨2, 8, 30, 0, 0⟩ (some 1)
        (BodyOutcome.normal none false) ∧
    (scheduler_iteration ⟨2, 8, 30, 0, 0⟩ (some 1)
        (BodyOutcome.normal none false)).head? =
      some (IterEvent.mainSleep
        (toMicro (get_next_friday ⟨2, 8, 30, 0, 0⟩) -
          toMicro ⟨2, 8, 30, 0, 0⟩))) :=
  ⟨(C8_recovery_on_raise ⟨0, 0, 0, 0, 0⟩ (some 1)
      (BodyOutcome.raised [IterEvent.generateCall])).1
      [IterEvent.generateCall] rfl,
   (C8_recovery_on_raise ⟨2, 8, 30, 0, 0⟩ (some 1)
      (BodyOutcome.normal none false)).2 none false rfl⟩

end Bot
